import Mathlib

/-!
Verification of the CasparCG compositing core (Stage and Mixer).

Shallow embedding of `src/core/producer/stage.cpp` and
`src/core/mixer/mixer.cpp`.  Maps keyed by layer index (`std::map<int, T>`)
are embedded as association lists with C++ `operator[]` semantics
(lookup materialises a default-constructed entry on a missing key).
External collaborator types that are declared outside the two source files
(`tweened_transform`, `layer`, `draw_frame`, the producers and the mixing
backends) are modelled from the spec, as indicated in their doc comments.
All numeric quantities that are `double`/`float` in the source are embedded
as rationals.
-/

set_option autoImplicit false

namespace CasparCG

/-- Field mode of a video format: progressive, or interlaced with upper or
lower field first (spec §6: format descriptor). -/
inductive field_mode where
  | progressive
  | upper
  | lower
deriving DecidableEq, Repr

/-- Format descriptor consumed by Stage production and Mixer mixing
(spec §6): width/height, square pixel dimensions, fps, field mode. -/
structure video_format_desc where
  width : Nat
  height : Nat
  square_width : Nat
  square_height : Nat
  fps : ℚ
  field_mode : field_mode
deriving DecidableEq, Repr

/-- Image part of a frame transform: fill scale/translation (x,y pairs),
opacity, layer depth and the key flag (spec §3, Transform; accessed by
`stage.cpp` as `fill_scale[1]`, `fill_translation[1]`, `is_key` and by
`mixer.cpp` as `image_transform.layer_depth`). -/
structure image_transform where
  fill_scale : ℚ × ℚ
  fill_translation : ℚ × ℚ
  opacity : ℚ
  layer_depth : Int
  is_key : Bool
deriving DecidableEq, Repr

/-- Audio part of a frame transform (volume weight). -/
structure audio_transform where
  volume : ℚ
deriving DecidableEq, Repr

/-- The transform attached to a frame: image and audio parts. -/
structure frame_transform where
  image_transform : image_transform
  audio_transform : audio_transform
deriving DecidableEq, Repr

/-- Identity image transform: unit fill scale, zero translation, full
opacity, depth 0, not a key. -/
def image_transform.default : image_transform :=
  { fill_scale := (1, 1), fill_translation := (0, 0), opacity := 1,
    layer_depth := 0, is_key := false }

/-- Default audio transform: unit volume. -/
def audio_transform.default : audio_transform := { volume := 1 }

/-- Identity frame transform. -/
def frame_transform.default : frame_transform :=
  { image_transform := image_transform.default,
    audio_transform := audio_transform.default }

instance : Inhabited frame_transform := ⟨frame_transform.default⟩

/-- Vertical/horizontal fill scale accessor, as `stage.cpp` reads
`transform.fill_scale`. -/
def frame_transform.fill_scale (t : frame_transform) : ℚ × ℚ :=
  t.image_transform.fill_scale

/-- Fill translation accessor, as `stage.cpp` reads
`transform.fill_translation`. -/
def frame_transform.fill_translation (t : frame_transform) : ℚ × ℚ :=
  t.image_transform.fill_translation

/-- Key flag accessor, as `stage.cpp` reads `transform.is_key`. -/
def frame_transform.is_key (t : frame_transform) : Bool :=
  t.image_transform.is_key

/-- Modelled from the spec: easing function id of a tween (`tweener` is an
external collaborator declared outside the two source files; spec §3 calls
it `easing: EasingFunctionId`). -/
inductive tweener where
  | linear
  | ease_in_quad
  | ease_out_quad
deriving DecidableEq, Repr

/-- Modelled from the spec: evaluate an easing id on a progress fraction. -/
def tweener.ease : tweener → ℚ → ℚ
  | .linear, f => f
  | .ease_in_quad, f => f * f
  | .ease_out_quad, f => f * (2 - f)

/-- Linear interpolation on rationals. -/
def qlerp (a b f : ℚ) : ℚ := a + (b - a) * f

/-- The `std::abs` function on the rational embedding of a `double`. -/
def qabs (x : ℚ) : ℚ := if x < 0 then -x else x

/-- Interpolate the image part of a transform; discrete fields
(`layer_depth`, `is_key`) come from the destination. -/
def image_transform.lerp (a b : image_transform) (f : ℚ) : image_transform :=
  { fill_scale := (qlerp a.fill_scale.1 b.fill_scale.1 f,
                   qlerp a.fill_scale.2 b.fill_scale.2 f),
    fill_translation := (qlerp a.fill_translation.1 b.fill_translation.1 f,
                         qlerp a.fill_translation.2 b.fill_translation.2 f),
    opacity := qlerp a.opacity b.opacity f,
    layer_depth := b.layer_depth,
    is_key := b.is_key }

/-- Interpolate a whole frame transform. -/
def frame_transform.lerp (a b : frame_transform) (f : ℚ) : frame_transform :=
  { image_transform := a.image_transform.lerp b.image_transform f,
    audio_transform := ⟨qlerp a.audio_transform.volume b.audio_transform.volume f⟩ }

/-- Modelled from the spec: `tweened_transform` (declared in `stage.h`,
outside the two source files; spec §3): immutable animation state with
source, destination, duration in ticks, elapsed ticks (clamped to the
duration) and an easing id. -/
structure tweened_transform where
  source : frame_transform
  dest : frame_transform
  duration : Nat
  elapsed : Nat
  easing : tweener
deriving DecidableEq, Repr

/-- Default tween: identity to identity, zero duration (spec §4.1: a
cleared transform is the identity; duration 0 means instantaneous). -/
def tweened_transform.default : tweened_transform :=
  { source := frame_transform.default, dest := frame_transform.default,
    duration := 0, elapsed := 0, easing := .linear }

instance : Inhabited tweened_transform := ⟨tweened_transform.default⟩

/-- Modelled from the spec: the interpolated snapshot at the current
elapsed tick count; once `elapsed = duration` (and for duration 0) the
value is the destination (spec §3 invariant). -/
def tweened_transform.fetch (t : tweened_transform) : frame_transform :=
  if t.duration = 0 then t.dest
  else t.source.lerp t.dest (t.easing.ease ((min t.elapsed t.duration : ℚ) / (t.duration : ℚ)))

/-- Modelled from the spec: advance the tween by `n` ticks, clamping
`elapsed` to the duration (spec §3 invariant, §8 tween monotonicity). -/
def tweened_transform.tick (t : tweened_transform) (n : Nat) : tweened_transform :=
  { t with elapsed := min (t.elapsed + n) t.duration }

/-- Modelled from the spec: "advance that layer's TweenedTransform by one
tick and capture the interpolated snapshot (fetch-and-tick)" (spec §4.1
step 2a): returns the snapshot after advancing, together with the advanced
tween. -/
def tweened_transform.fetch_and_tick (t : tweened_transform) (n : Nat) :
    frame_transform × tweened_transform :=
  let t2 := t.tick n
  (t2.fetch, t2)

/-- Producer flags computed by the Stage (spec §6: flags ∈
{none, deinterlace, alpha_only}, a bitset; embedded as two booleans). -/
structure producer_flags where
  deinterlace : Bool
  alpha_only : Bool
deriving DecidableEq, Repr

/-- The empty flag set (`frame_producer::flags::none`). -/
def producer_flags.none : producer_flags := ⟨false, false⟩

/-- Raw frame content produced by a layer's producer; the Stage does not
interpret it (spec §6), so it is embedded as an opaque token. -/
abbrev raw_frame := Nat

/-- Modelled from the spec: a frame producer (external collaborator,
spec §2/§6).  `produces = none` embeds a producer whose `receive` throws
(the fault-injection scenario of spec §8). -/
structure frame_producer where
  id : Nat
  produces : Option raw_frame
deriving DecidableEq, Repr

/-- Modelled from the spec: the empty/null producer that a
default-constructed layer holds in both slots. -/
def frame_producer.empty : frame_producer := ⟨0, some 0⟩

/-- Modelled from the spec: a layer (external collaborator declared in
`layer.h`, spec §3): a foreground/background producer pair and pause
state, managed by index by the Stage. -/
structure layer where
  foreground : frame_producer
  background : frame_producer
  paused : Bool
deriving DecidableEq, Repr

/-- Modelled from the spec: a default-constructed layer holds empty
producers and is not paused. -/
def layer.default : layer :=
  { foreground := frame_producer.empty, background := frame_producer.empty,
    paused := false }

instance : Inhabited layer := ⟨layer.default⟩

/-- Modelled from the spec: `receive(flags) -> RawFrame` (spec §6); may
throw, embedded as `Except`.  The produced content is opaque to the Stage
and independent of the flags in this model (producer internals are out of
scope). -/
def layer.receive (l : layer) (_flags : producer_flags) : Except Unit raw_frame :=
  match l.foreground.produces with
  | some r => .ok r
  | none => .error ()

/-- Modelled from the spec: `load` installs the producer into the layer's
background slot (spec §4.1: "install the producer into layer index's
foreground or background slot"). -/
def layer.load (l : layer) (producer : frame_producer) (_preview : Bool)
    (_auto_play_delta : Int) : layer :=
  { l with background := producer }

/-- Modelled from the spec: a snapshot report of one layer's state
(spec §4.1 `info(index)`). -/
structure layer_info where
  foreground_id : Nat
  background_id : Nat
  paused : Bool
deriving DecidableEq, Repr

/-- Modelled from the spec: produce the snapshot report for one layer. -/
def layer.info (l : layer) : layer_info :=
  ⟨l.foreground.id, l.background.id, l.paused⟩

/-- Modelled from the spec: the frame-graph frame type (external
collaborator `draw_frame`, spec §6): an empty sentinel, a wrapped raw
frame, or an interlacing of two frames — each node carrying the mutable
transform attached after creation. -/
inductive draw_frame where
  | nil (t : frame_transform)
  | frame (raw : raw_frame) (t : frame_transform)
  | interlaced (a : draw_frame) (b : draw_frame) (fm : field_mode) (t : frame_transform)
deriving DecidableEq, Repr

/-- Modelled from the spec: the `draw_frame::empty()` sentinel. -/
def draw_frame.empty : draw_frame := .nil frame_transform.default

/-- The transform attached to a frame (`frame.transform()` /
`get_frame_transform()`). -/
def draw_frame.transform : draw_frame → frame_transform
  | .nil t => t
  | .frame _ t => t
  | .interlaced _ _ _ t => t

/-- Replace the transform attached to the top node of a frame. -/
def draw_frame.set_transform : draw_frame → frame_transform → draw_frame
  | .nil _, t => .nil t
  | .frame r _, t => .frame r t
  | .interlaced a b fm _, t => .interlaced a b fm t

/-- Embedding of `frame.transform().image_transform.layer_depth = d` — mutate the layer
depth of the frame's top-level transform. -/
def draw_frame.set_layer_depth (f : draw_frame) (d : Int) : draw_frame :=
  f.set_transform
    { f.transform with
      image_transform := { f.transform.image_transform with layer_depth := d } }

/-- Modelled from the spec: `interlace(frameA, frameB, fieldMode)` free
operation of the frame graph (spec §6). -/
def draw_frame.interlace (a b : draw_frame) (fm : field_mode) : draw_frame :=
  .interlaced a b fm frame_transform.default

/-- One visited node of a frame during a mixer traversal: the node's own
transform and, for leaves, the raw content. -/
abbrev visit_item := frame_transform × Option raw_frame

/-- Modelled from the spec: the depth-first visit order of a frame's
composite structure, as seen by a visitor passed to `accept` (spec §4.2:
"both accept calls are depth-first visits over the frame's internal
composite structure, so nested sub-frames contribute individually"). -/
def draw_frame.visit : draw_frame → List visit_item
  | .nil t => [(t, none)]
  | .frame r t => [(t, some r)]
  | .interlaced a b _ t => (t, none) :: (a.visit ++ b.visit)

/-- Integer-keyed map embedding `std::map<int, α>`: an association list of
entries. -/
structure Imap (α : Type) where
  entries : List (Int × α)
deriving DecidableEq, Repr

namespace Imap

variable {α : Type}

/-- The empty map. -/
def empty : Imap α := ⟨[]⟩

/-- First value with the given key in an entry list. -/
def lookup_list (k : Int) : List (Int × α) → Option α
  | [] => none
  | (k2, v) :: rest => if k2 = k then some v else lookup_list k rest

/-- Replace the value at `k` in an entry list if present (in place,
keeping the entry's position), else append a fresh entry. -/
def insert_list (k : Int) (v : α) : List (Int × α) → List (Int × α)
  | [] => [(k, v)]
  | (k2, v2) :: rest =>
      if k2 = k then (k, v) :: rest else (k2, v2) :: insert_list k v rest

/-- Lookup in `m.find(k)` style: first entry with the given key. -/
def find? (m : Imap α) (k : Int) : Option α :=
  lookup_list k m.entries

/-- Replace the value at `k` if present (in place, keeping the entry's
position), else append a fresh entry. -/
def insert (m : Imap α) (k : Int) (v : α) : Imap α :=
  ⟨insert_list k v m.entries⟩

/-- Embedding of `m.erase(k)`: drop every entry with the given key. -/
def erase (m : Imap α) (k : Int) : Imap α :=
  ⟨m.entries.filter (fun kv => kv.1 ≠ k)⟩

/-- C++ `operator[]`: return the value at `k`, materialising a
default-constructed entry when the key is missing (spec §7: "map-based
lookups that are given unknown indices create a default-constructed
entry"). -/
def get_or_create [Inhabited α] (m : Imap α) (k : Int) : α × Imap α :=
  match m.find? k with
  | some v => (v, m)
  | none => (default, ⟨m.entries ++ [(k, default)]⟩)

/-- The key list, in iteration order. -/
def keys (m : Imap α) : List Int := m.entries.map Prod.fst

end Imap

/-! ## Stage (`src/core/producer/stage.cpp`) -/

/-- The mutable state of `stage::impl` (stage.cpp lines 50-51): the layer
map and the tweened-transform map. -/
structure StageSt where
  layers_ : Imap layer
  transforms_ : Imap tweened_transform
deriving DecidableEq, Repr

/-- The type `stage::transform_func_t`: a caller-supplied pure function from a
transform snapshot to a new target transform. -/
abbrev transform_func := frame_transform → frame_transform

/-- One element of the batch passed to `apply_transforms`
(`std::tuple<int, transform_func_t, unsigned int, tweener>`). -/
structure transform_item where
  index : Int
  func : transform_func
  duration : Nat
  tween : tweener

/-- Flag computation of `stage::impl::operator()` (stage.cpp lines 75-83):
under a non-progressive format, flag deinterlace when the snapshot's
vertical fill scale differs from 1 by more than 0.0001 or its vertical
fill translation exceeds 0.0001 in absolute value; flag alpha-only when
the snapshot is a key. -/
def produce_flags (fd : video_format_desc) (transform : frame_transform) :
    producer_flags :=
  { deinterlace :=
      if fd.field_mode ≠ field_mode.progressive then
        decide (qabs (transform.fill_scale.2 - 1) > (0.0001 : ℚ)) ||
        decide (qabs transform.fill_translation.2 > (0.0001 : ℚ))
      else false,
    alpha_only := transform.is_key }

/-- The per-layer body of the production tick (stage.cpp lines 71-98),
sequentialised over the layer list (the `tbb::parallel_for_each` units
touch disjoint map entries, so their joined effect equals processing the
layers in map order): fetch-and-tick the layer's transform, compute flags,
receive a raw frame, wrap it with the snapshot; under an interlaced format
fetch-and-tick a second snapshot, wrap the same raw frame with it and
interlace the two wrapped frames.  The boolean of the result is `true`
when some layer's `receive` threw; the frame and transform maps of the
result are then the maps as assembled up to the fault. -/
def produce_loop (fd : video_format_desc) :
    List (Int × layer) → Imap draw_frame → Imap tweened_transform →
    Imap draw_frame × Imap tweened_transform × Bool
  | [], frames, ts => (frames, ts, false)
  | (k, l) :: rest, frames, ts =>
      let p1 := ts.get_or_create k
      let ft1 := p1.1.fetch_and_tick 1
      let transform := ft1.1
      let ts1 := (p1.2).insert k ft1.2
      let flags := produce_flags fd transform
      match l.receive flags with
      | .error _ => (frames, ts1, true)
      | .ok raw =>
          let frame1 := draw_frame.frame raw transform
          if fd.field_mode ≠ field_mode.progressive then
            let p2 := ts1.get_or_create k
            let ft2 := p2.1.fetch_and_tick 1
            let ts2 := (p2.2).insert k ft2.2
            let frame2 := draw_frame.frame raw ft2.1
            produce_loop fd rest
              (frames.insert k (draw_frame.interlace frame1 frame2 fd.field_mode)) ts2
          else
            produce_loop fd rest (frames.insert k frame1) ts1

/-- The frame map initialised before the parallel section (stage.cpp
lines 66-67): every known layer's slot starts as the empty frame. -/
def initial_frames (s : StageSt) : Imap draw_frame :=
  ⟨s.layers_.entries.map (fun kl => (kl.1, draw_frame.empty))⟩

/-- The body of `stage::impl::operator()` up to the catch handler: the
assembled frame map, the transform map and the fault flag. -/
def stage_produce_core (s : StageSt) (fd : video_format_desc) :
    Imap draw_frame × Imap tweened_transform × Bool :=
  produce_loop fd s.layers_.entries (initial_frames s) s.transforms_

/-- Result of one production tick: the returned frame map, the Stage state
afterwards, and the number of errors logged via
`CASPAR_LOG_CURRENT_EXCEPTION`. -/
structure produce_result where
  frames : Imap draw_frame
  state : StageSt
  errors_logged : Nat
deriving Repr

/-- Embedding of `stage::impl::operator()` (stage.cpp lines 58-108): assemble the tick's
frame map; on an exception, clear the layer map (`layers_.clear()`, the
catch handler at lines 100-104), log once, and still return the frame map
assembled so far.  No exception propagates to the caller. -/
def stage_produce (s : StageSt) (fd : video_format_desc) : produce_result :=
  match stage_produce_core s fd with
  | (frames, ts, true) =>
      { frames := frames, state := { layers_ := Imap.empty, transforms_ := ts },
        errors_logged := 1 }
  | (frames, ts, false) =>
      { frames := frames, state := { layers_ := s.layers_, transforms_ := ts },
        errors_logged := 0 }

/-- Body of the task scheduled by `stage::impl::apply_transform`
(stage.cpp lines 123-131): snapshot the current transform via
`operator[]` (materialising a default entry), build the destination with
the caller's function, and replace the entry with a fresh tween of the
given duration and easing. -/
def stage_apply_transform (s : StageSt) (index : Int) (f : transform_func)
    (mix_duration : Nat) (tween : tweener) : StageSt :=
  let p := s.transforms_.get_or_create index
  let src := p.1.fetch
  let dst := f src
  { s with transforms_ :=
      (p.2).insert index ⟨src, dst, mix_duration, 0, tween⟩ }

/-- One step of the batch loop of `stage::impl::apply_transforms`
(stage.cpp lines 114-119). -/
def apply_transform_item (ts : Imap tweened_transform) (item : transform_item) :
    Imap tweened_transform :=
  let p := ts.get_or_create item.index
  let src := p.1.fetch
  let dst := item.func src
  (p.2).insert item.index ⟨src, dst, item.duration, 0, item.tween⟩

/-- Body of the single task scheduled by `stage::impl::apply_transforms`
(stage.cpp lines 110-121): fold the whole batch over the transform map. -/
def stage_apply_transforms_body (s : StageSt) (batch : List transform_item) :
    StageSt :=
  { s with transforms_ := batch.foldl apply_transform_item s.transforms_ }

/-- Body of `stage::impl::clear_transforms(int)` (stage.cpp lines 133-139). -/
def stage_clear_transforms_index (s : StageSt) (index : Int) : StageSt :=
  { s with transforms_ := s.transforms_.erase index }

/-- Body of `stage::impl::clear_transforms()` (stage.cpp lines 141-147). -/
def stage_clear_transforms (s : StageSt) : StageSt :=
  { s with transforms_ := Imap.empty }

/-- Body of `stage::impl::load` (stage.cpp lines 149-155):
`layers_[index].load(...)` — `operator[]` materialises a default layer,
then `load` runs on it. -/
def stage_load (s : StageSt) (index : Int) (producer : frame_producer)
    (preview : Bool) (auto_play_delta : Int) : StageSt :=
  let p := s.layers_.get_or_create index
  { s with layers_ := (p.2).insert index (p.1.load producer preview auto_play_delta) }

/-- Body of `stage::impl::clear(int)` (stage.cpp lines 181-187): erase the
layer entry only; the transform map is not touched. -/
def stage_clear_index (s : StageSt) (index : Int) : StageSt :=
  { s with layers_ := s.layers_.erase index }

/-- Body of `stage::impl::clear()` (stage.cpp lines 189-195): clear the
layer map only; the transform map is not touched. -/
def stage_clear (s : StageSt) : StageSt :=
  { s with layers_ := Imap.empty }

/-- Body of the within-instance `stage::impl::swap_layer` (stage.cpp
lines 212-218): `std::swap(layers_[index], layers_[other_index])` — both
`operator[]` lookups materialise default entries when missing, then the
two values are exchanged. -/
def stage_swap_layer (s : StageSt) (index other_index : Int) : StageSt :=
  let p1 := s.layers_.get_or_create index
  let p2 := (p1.2).get_or_create other_index
  { s with layers_ := ((p2.2).insert index p2.1).insert other_index p1.1 }

/-- Body of `stage::impl::foreground` (stage.cpp lines 237-243):
`layers_[index].foreground()` — the lookup materialises a default layer
when the index is missing and the result is that layer's foreground
producer; there is no not-found signal. -/
def stage_foreground (s : StageSt) (index : Int) : frame_producer × StageSt :=
  let p := s.layers_.get_or_create index
  (p.1.foreground, { s with layers_ := p.2 })

/-- Body of `stage::impl::background` (stage.cpp lines 245-251). -/
def stage_background (s : StageSt) (index : Int) : frame_producer × StageSt :=
  let p := s.layers_.get_or_create index
  (p.1.background, { s with layers_ := p.2 })

/-- Body of `stage::impl::info(int)` (stage.cpp lines 265-271):
`layers_[index].info()` with `operator[]` semantics. -/
def stage_info_index (s : StageSt) (index : Int) : layer_info × StageSt :=
  let p := s.layers_.get_or_create index
  (p.1.info, { s with layers_ := p.2 })

/-! ## Mixer (`src/core/mixer/mixer.cpp`) -/

/-- Modelled from the spec: the audio-mixing accumulator (external
backend, spec §6): master volume plus the contributions folded so far,
each a visited node of a layer frame. -/
structure audio_mixer where
  master_volume : ℚ
  items : List visit_item
deriving DecidableEq, Repr

/-- Modelled from the spec: the image-mixing accumulator (external
backend, spec §6): the contributions folded so far. -/
structure image_mixer where
  items : List visit_item
deriving DecidableEq, Repr

/-- Embedding of `frame.accept(audio_mixer_)`: depth-first fold of the frame's
contribution into the audio accumulator. -/
def draw_frame.accept_audio (f : draw_frame) (am : audio_mixer) : audio_mixer :=
  { am with items := am.items ++ f.visit }

/-- Embedding of `frame.accept(*image_mixer_)`: depth-first fold of the frame's
contribution into the image accumulator. -/
def draw_frame.accept_image (f : draw_frame) (im : image_mixer) : image_mixer :=
  { im with items := im.items ++ f.visit }

/-- The finalized audio buffer of one tick: the folded contributions and
the master volume in force. -/
structure audio_buffer where
  items : List visit_item
  master_volume : ℚ
deriving DecidableEq, Repr

/-- The finalized image buffer of one tick. -/
structure image_buffer where
  items : List visit_item
deriving DecidableEq, Repr

/-- Modelled from the spec: `audio_mixer_(format_desc)` finalizes the
audio accumulator into a buffer and resets it for the next tick. -/
def audio_mixer.finalize (am : audio_mixer) (_fd : video_format_desc) :
    audio_buffer × audio_mixer :=
  (⟨am.items, am.master_volume⟩, { am with items := [] })

/-- Modelled from the spec: `(*image_mixer_)(format_desc)` finalizes the
image accumulator into a buffer and resets it for the next tick. -/
def image_mixer.finalize (im : image_mixer) (_fd : video_format_desc) :
    image_buffer × image_mixer :=
  (⟨im.items⟩, { im with items := [] })

/-- Pixel formats used by the mixer output (`core::pixel_format::bgra`). -/
inductive pixel_format where
  | bgra
deriving DecidableEq, Repr

/-- One plane of a pixel format descriptor
(`pixel_format_desc::plane(width, height, 4)`). -/
structure pixel_plane where
  width : Nat
  height : Nat
  stride : Nat
deriving DecidableEq, Repr

/-- The type `core::pixel_format_desc`: format tag plus planes. -/
structure pixel_format_desc where
  format : pixel_format
  planes : List pixel_plane
deriving DecidableEq, Repr

/-- The immutable composed output frame of one mix call
(`const_frame(image, audio, desc)`). -/
structure const_frame where
  image : image_buffer
  audio : audio_buffer
  desc : pixel_format_desc
deriving DecidableEq, Repr

/-- The state owned by `mixer::impl` apart from its queue: the two
accumulators and the process-wide current aspect ratio set by
`detail::set_current_aspect_ratio`. -/
structure MixerCore where
  audio_mixer_ : audio_mixer
  image_mixer_ : image_mixer
  current_aspect_ratio : ℚ
deriving DecidableEq, Repr

/-- The per-frame loop of `mixer::impl::operator()` (mixer.cpp
lines 82-87): for every layer frame in iteration order, the frame accepts
the audio accumulator, then its top-level layer depth is set to 1, then it
accepts the image accumulator. -/
def mix_fold (am : audio_mixer) (im : image_mixer) :
    List (Int × draw_frame) → audio_mixer × image_mixer
  | [] => (am, im)
  | (_, f) :: rest =>
      let am2 := f.accept_audio am
      let f2 := f.set_layer_depth 1
      let im2 := f2.accept_image im
      mix_fold am2 im2 rest

/-- Embedding of `mixer::impl::operator()` (mixer.cpp lines 70-106): set the
process-wide aspect ratio from the format's square dimensions, fold every
layer frame into both accumulators, finalize image and audio against the
format, and package both into one immutable frame tagged with a BGRA
descriptor holding one width×height plane of 4 bytes per pixel.  The
backends are embedded as total functions, so the catch handler at
lines 96-100 (log and return `const_frame::empty()`) is unreachable in
this model. -/
def mixer_mix (st : MixerCore) (frames : Imap draw_frame)
    (fd : video_format_desc) : const_frame × MixerCore :=
  let aspect := (fd.square_width : ℚ) / (fd.square_height : ℚ)
  let p := mix_fold st.audio_mixer_ st.image_mixer_ frames.entries
  let pi := p.2.finalize fd
  let pa := p.1.finalize fd
  let desc : pixel_format_desc := ⟨.bgra, [⟨fd.width, fd.height, 4⟩]⟩
  (⟨pi.1, pa.1, desc⟩,
   { audio_mixer_ := pa.2, image_mixer_ := pi.2, current_aspect_ratio := aspect })

/-! ## Executor models (spec §5)

Each Stage and each Mixer owns one single-threaded, priority-ordered task
queue: FIFO within a lane, the high lane drains before the normal lane,
and a task runs to completion.  Tasks are embedded as data; executing a
task is a single atomic step on the owning instance's state, so the only
observable states are those between whole tasks. -/

/-- A task on the Mixer's queue: a queued mix, or a master-volume write. -/
inductive mixer_task where
  | mix_task (frames : Imap draw_frame) (fd : video_format_desc)
  | set_volume_task (v : ℚ)

/-- Execute one mixer task to completion on the mixer state. -/
def exec_mixer_task (st : MixerCore) : mixer_task → MixerCore
  | .mix_task frames fd => (mixer_mix st frames fd).2
  | .set_volume_task v =>
      { st with audio_mixer_ := { st.audio_mixer_ with master_volume := v } }

/-- A Mixer instance: its state plus the two priority lanes of its queue. -/
structure MixerExec where
  st : MixerCore
  high : List mixer_task
  normal : List mixer_task

/-- Embedding of `mixer::impl::set_master_volume` (mixer.cpp lines 108-114):
`begin_invoke` at high priority — enqueue the volume write on the high
lane and return immediately. -/
def mixer_set_master_volume (e : MixerExec) (v : ℚ) : MixerExec :=
  { e with high := e.high ++ [.set_volume_task v] }

/-- Embedding of `mixer::impl::get_master_volume` (mixer.cpp lines 116-122): `invoke`
at high priority — the read task is appended to the high lane and the
caller blocks until it completes, so every task already in the high lane
runs first (FIFO) while queued normal-priority tasks stay pending. -/
def mixer_get_master_volume (e : MixerExec) : ℚ × MixerExec :=
  let st := e.high.foldl exec_mixer_task e.st
  (st.audio_mixer_.master_volume, { e with st := st, high := [] })

/-- A task on the Stage's queue (the ones relevant to the claims; each
constructor is the body scheduled by the corresponding stage.cpp
operation). -/
inductive stage_task where
  | apply_transforms_task (batch : List transform_item)
  | apply_transform_task (index : Int) (f : transform_func) (mix_duration : Nat) (tween : tweener)
  | clear_task (index : Int)
  | clear_all_task
  | swap_layer_task (index : Int) (other_index : Int)

/-- Execute one stage task to completion on the stage state. -/
def exec_stage_task (s : StageSt) : stage_task → StageSt
  | .apply_transforms_task batch => stage_apply_transforms_body s batch
  | .apply_transform_task index f d tw => stage_apply_transform s index f d tw
  | .clear_task index => stage_clear_index s index
  | .clear_all_task => stage_clear s
  | .swap_layer_task i j => stage_swap_layer s i j

/-- Run a sequence of whole tasks; the intermediate states of the fold are
the only states a later task (such as a production tick) can observe. -/
def run_stage_tasks (s : StageSt) (q : List stage_task) : StageSt :=
  q.foldl exec_stage_task s

/-- A Stage instance: its state plus the high-priority lane of its queue
(every control operation of stage.cpp is scheduled at `high_priority`). -/
structure StageExec where
  st : StageSt
  high : List stage_task

/-- Embedding of `stage::impl::apply_transforms` (stage.cpp lines 110-121): a single
`begin_invoke` at high priority whose body performs every replacement of
the batch — the whole batch occupies exactly one scheduled task. -/
def stage_apply_transforms (e : StageExec) (batch : List transform_item) :
    StageExec :=
  { e with high := e.high ++ [.apply_transforms_task batch] }

/-! ## Concrete sample data used by counterexamples and witnesses -/

/-- A producer that yields raw frame 42. -/
def sample_producer : frame_producer := ⟨7, some 42⟩

/-- A producer whose `receive` throws (the fault-injection scenario). -/
def faulty_producer : frame_producer := ⟨9, none⟩

/-- A healthy layer. -/
def ok_layer : layer := { layer.default with foreground := sample_producer }

/-- A layer whose production faults. -/
def faulty_layer : layer := { layer.default with foreground := faulty_producer }

/-- 1080p25 progressive format. -/
def fd_progressive : video_format_desc := ⟨1920, 1080, 1920, 1080, 25, .progressive⟩

/-- PAL 576i upper-field-first format. -/
def fd_interlaced : video_format_desc := ⟨720, 576, 1024, 576, 25, .upper⟩

/-- A transform whose vertical fill scale is 1.00005 (within epsilon). -/
def t100005 : frame_transform :=
  { frame_transform.default with
    image_transform := { image_transform.default with fill_scale := (1, 1.00005) } }

/-- A transform whose vertical fill scale is 1.01 (outside epsilon). -/
def t101 : frame_transform :=
  { frame_transform.default with
    image_transform := { image_transform.default with fill_scale := (1, 1.01) } }

/-- A transform with layer depth 5. -/
def t_depth5 : frame_transform :=
  { frame_transform.default with
    image_transform := { image_transform.default with layer_depth := 5 } }

/-- A stage with one faulting layer and no transforms. -/
def s_fault : StageSt := ⟨⟨[(0, faulty_layer)]⟩, ⟨[]⟩⟩

/-- A stage with one healthy layer, one in-flight transform and no faults. -/
def s_one : StageSt :=
  ⟨⟨[(0, ok_layer)]⟩,
   ⟨[(0, ⟨frame_transform.default, t101, 4, 0, .linear⟩)]⟩⟩

/-- A stage with an in-flight transform at index 0 and a layer at index 0. -/
def s_tween : StageSt :=
  ⟨⟨[(0, ok_layer)]⟩,
   ⟨[(0, ⟨frame_transform.default, t101, 4, 1, .linear⟩)]⟩⟩

/-- Two distinguishable layers for swap experiments. -/
def layer_a : layer := { layer.default with foreground := ⟨1, some 10⟩ }

/-- Second distinguishable layer for swap experiments. -/
def layer_b : layer := { layer.default with foreground := ⟨2, some 20⟩ }

/-- A stage holding `layer_a` at 0 and `layer_b` at 1. -/
def s_ab : StageSt := ⟨⟨[(0, layer_a), (1, layer_b)]⟩, ⟨[]⟩⟩

/-- The empty stage. -/
def s_empty : StageSt := ⟨⟨[]⟩, ⟨[]⟩⟩

/-- A fresh mixer core. -/
def mc0 : MixerCore := ⟨⟨1, []⟩, ⟨[]⟩, 1⟩

/-- A stage with a faulting layer at 0 and an in-flight transform at 0. -/
def s_fault2 : StageSt :=
  ⟨⟨[(0, faulty_layer)]⟩,
   ⟨[(0, ⟨frame_transform.default, t101, 4, 1, .linear⟩)]⟩⟩

/-- A two-element transform batch with distinct indices. -/
def batch2 : List transform_item :=
  [⟨0, fun t => t, 3, .linear⟩, ⟨1, fun _ => t101, 2, .ease_in_quad⟩]

/-! ## Map lemmas -/

namespace Imap

variable {α : Type}

theorem lookup_insert_self (k : Int) (v : α) (l : List (Int × α)) :
    lookup_list k (insert_list k v l) = some v := by
  induction l with
  | nil => simp [insert_list, lookup_list]
  | cons hd tl ih =>
      obtain ⟨k2, v2⟩ := hd
      by_cases h : k2 = k
      · simp [insert_list, h, lookup_list]
      · simp [insert_list, h, lookup_list, ih]

theorem lookup_insert_ne (k k2 : Int) (v : α) (l : List (Int × α))
    (hne : k ≠ k2) :
    lookup_list k2 (insert_list k v l) = lookup_list k2 l := by
  induction l with
  | nil => simp [insert_list, lookup_list, hne]
  | cons hd tl ih =>
      obtain ⟨k3, v3⟩ := hd
      by_cases h : k3 = k
      · subst h
        simp [insert_list, lookup_list, hne]
      · simp [insert_list, h, lookup_list, ih]

theorem insert_insert_same (k : Int) (v w : α) (l : List (Int × α)) :
    insert_list k w (insert_list k v l) = insert_list k w l := by
  induction l with
  | nil => simp [insert_list]
  | cons hd tl ih =>
      obtain ⟨k2, v2⟩ := hd
      by_cases h : k2 = k
      · simp [insert_list, h]
      · simp [insert_list, h, ih]

theorem insert_self_of_lookup (k : Int) (v : α) (l : List (Int × α))
    (h : lookup_list k l = some v) : insert_list k v l = l := by
  induction l with
  | nil => simp [lookup_list] at h
  | cons hd tl ih =>
      obtain ⟨k2, v2⟩ := hd
      by_cases h2 : k2 = k
      · subst h2
        simp [lookup_list] at h
        simp [insert_list, h]
      · simp [lookup_list, h2] at h
        simp [insert_list, h2, ih h]

theorem lookup_append_self (k : Int) (v : α) (l : List (Int × α))
    (h : lookup_list k l = none) :
    lookup_list k (l ++ [(k, v)]) = some v := by
  induction l with
  | nil => simp [lookup_list]
  | cons hd tl ih =>
      obtain ⟨k2, v2⟩ := hd
      by_cases h2 : k2 = k
      · simp [lookup_list, h2] at h
      · simp [lookup_list, h2] at h ⊢
        exact ih h

theorem lookup_append_ne (k k2 : Int) (v : α) (l : List (Int × α))
    (hne : k ≠ k2) :
    lookup_list k2 (l ++ [(k, v)]) = lookup_list k2 l := by
  induction l with
  | nil => simp [lookup_list, hne]
  | cons hd tl ih =>
      obtain ⟨k3, v3⟩ := hd
      by_cases h2 : k3 = k2
      · simp [lookup_list, h2]
      · simp [lookup_list, h2, ih]

theorem find?_insert_self (m : Imap α) (k : Int) (v : α) :
    (m.insert k v).find? k = some v :=
  lookup_insert_self k v m.entries

theorem find?_insert_ne (m : Imap α) (k k2 : Int) (v : α) (hne : k ≠ k2) :
    (m.insert k v).find? k2 = m.find? k2 :=
  lookup_insert_ne k k2 v m.entries hne

theorem find?_erase_self (m : Imap α) (k : Int) :
    (m.erase k).find? k = none := by
  show lookup_list k (m.entries.filter fun kv => kv.1 ≠ k) = none
  induction m.entries with
  | nil => simp [lookup_list]
  | cons hd tl ih =>
      obtain ⟨k2, v2⟩ := hd
      simp only [List.filter_cons, decide_not] at ih ⊢
      by_cases h : k2 = k
      · simpa [h] using ih
      · simpa [h, lookup_list] using ih

theorem find?_erase_ne (m : Imap α) (k k2 : Int) (hne : k ≠ k2) :
    (m.erase k).find? k2 = m.find? k2 := by
  show lookup_list k2 (m.entries.filter fun kv => kv.1 ≠ k) =
    lookup_list k2 m.entries
  induction m.entries with
  | nil => simp
  | cons hd tl ih =>
      obtain ⟨k3, v3⟩ := hd
      simp only [List.filter_cons, decide_not] at ih ⊢
      by_cases h : k3 = k
      · subst h
        simpa [lookup_list, hne] using ih
      · by_cases h2 : k3 = k2
        · subst h2
          simp [lookup_list, h]
        · simp [lookup_list, h, h2, ih]

theorem get_or_create_of_some [Inhabited α] (m : Imap α) (k : Int) (v : α)
    (h : m.find? k = some v) : m.get_or_create k = (v, m) := by
  simp [get_or_create, h]

theorem get_or_create_of_none [Inhabited α] (m : Imap α) (k : Int)
    (h : m.find? k = none) :
    m.get_or_create k = ((default : α), ⟨m.entries ++ [(k, default)]⟩) := by
  simp [get_or_create, h]

theorem keys_insert_of_mem (k : Int) (v : α) (l : List (Int × α))
    (h : lookup_list k l ≠ none) :
    (insert_list k v l).map Prod.fst = l.map Prod.fst := by
  induction l with
  | nil => simp [lookup_list] at h
  | cons hd tl ih =>
      obtain ⟨k2, v2⟩ := hd
      by_cases h2 : k2 = k
      · simp [insert_list, h2]
      · simp [lookup_list, h2] at h
        simp [insert_list, h2, ih h]

theorem find?_get_or_create_ne [Inhabited α] (m : Imap α) (k k2 : Int)
    (h : k ≠ k2) : ((m.get_or_create k).2).find? k2 = m.find? k2 := by
  rcases hf : m.find? k with _ | w
  · rw [get_or_create_of_none _ _ hf]
    exact lookup_append_ne k k2 default m.entries h
  · rw [get_or_create_of_some _ _ _ hf]

theorem find?_get_or_create_self [Inhabited α] (m : Imap α) (k : Int) :
    ((m.get_or_create k).2).find? k = some (m.get_or_create k).1 := by
  rcases hf : m.find? k with _ | w
  · rw [get_or_create_of_none _ _ hf]
    exact lookup_append_self _ _ _ hf
  · rw [get_or_create_of_some _ _ _ hf]
    exact hf

theorem get_or_create_fst [Inhabited α] (m : Imap α) (k : Int) :
    (m.get_or_create k).1 = (m.find? k).getD default := by
  rcases hf : m.find? k with _ | w
  · rw [get_or_create_of_none _ _ hf]
    rfl
  · rw [get_or_create_of_some _ _ _ hf]
    rfl

theorem lookup_isSome_of_mem (k : Int) (v : α) (l : List (Int × α))
    (h : (k, v) ∈ l) : lookup_list k l ≠ none := by
  induction l with
  | nil => cases h
  | cons hd tl ih =>
      obtain ⟨k2, v2⟩ := hd
      by_cases h2 : k2 = k
      · simp [lookup_list, h2]
      · rcases List.mem_cons.mp h with he | hm
        · cases he
          exact absurd rfl h2
        · simpa [lookup_list, h2] using ih hm

theorem find?_insert_ne_none (m : Imap α) (k k2 : Int) (v : α)
    (h : m.find? k2 ≠ none) : (m.insert k v).find? k2 ≠ none := by
  by_cases hk : k = k2
  · subst hk
    rw [find?_insert_self]
    simp
  · rw [find?_insert_ne _ _ _ _ hk]
    exact h

end Imap

theorem default_layer_eq : (default : layer) = layer.default := rfl

theorem default_tween_eq : (default : tweened_transform) = tweened_transform.default := rfl

/-! ## Production-loop lemmas -/

theorem keys_insert_of_find? {α : Type} (m : Imap α) (k : Int) (v : α)
    (h : m.find? k ≠ none) : (m.insert k v).keys = m.keys :=
  Imap.keys_insert_of_mem k v m.entries h

/-- One tick-and-store step on the transform map preserves the presence of
every entry. -/
theorem find?_tick_step (ts : Imap tweened_transform) (k2 k : Int)
    (t : tweened_transform) (v : tweened_transform)
    (h : ts.find? k = some v) :
    ∃ w, (((ts.get_or_create k2).2).insert k2 t).find? k = some w := by
  by_cases hk : k2 = k
  · subst hk
    exact ⟨t, Imap.find?_insert_self _ _ _⟩
  · rw [Imap.find?_insert_ne _ _ _ _ hk, Imap.find?_get_or_create_ne _ _ _ hk]
    exact ⟨v, h⟩

/-- Layers whose key differs from `k` never touch the entry at `k`, in
either result map, fault or not. -/
theorem produce_loop_untouched (fd : video_format_desc)
    (ls : List (Int × layer)) (frames : Imap draw_frame)
    (ts : Imap tweened_transform) (k : Int)
    (hk : ∀ kl ∈ ls, kl.1 ≠ k) :
    (produce_loop fd ls frames ts).1.find? k = frames.find? k ∧
    (produce_loop fd ls frames ts).2.1.find? k = ts.find? k := by
  induction ls generalizing frames ts with
  | nil => exact ⟨rfl, rfl⟩
  | cons hd tl ih =>
      obtain ⟨k2, l⟩ := hd
      have hk2 : k2 ≠ k := hk (k2, l) (List.mem_cons_self _ _)
      have htl : ∀ kl ∈ tl, kl.1 ≠ k := fun kl hm => hk kl (List.mem_cons_of_mem _ hm)
      have hts : ∀ t : tweened_transform,
          (((ts.get_or_create k2).2).insert k2 t).find? k = ts.find? k := fun t => by
        rw [Imap.find?_insert_ne _ _ _ _ hk2, Imap.find?_get_or_create_ne _ _ _ hk2]
      rcases hp : l.foreground.produces with _ | raw
      · simp only [produce_loop, layer.receive, hp]
        exact ⟨trivial, hts _⟩
      · simp only [produce_loop, layer.receive, hp]
        by_cases hfm : fd.field_mode = field_mode.progressive
        · rw [if_neg (fun hh => hh hfm)]
          rcases ih (frames.insert k2 _) _ htl with ⟨h1, h2⟩
          refine ⟨?_, ?_⟩
          · rw [h1, Imap.find?_insert_ne _ _ _ _ hk2]
          · rw [h2, hts]
        · rw [if_pos hfm]
          rcases ih (frames.insert k2 _) _ htl with ⟨h1, h2⟩
          refine ⟨?_, ?_⟩
          · rw [h1, Imap.find?_insert_ne _ _ _ _ hk2]
          · rw [h2]
            rw [Imap.find?_insert_ne _ _ _ _ hk2,
              Imap.find?_get_or_create_ne _ _ _ hk2, hts]

/-- When no layer's producer faults, the production loop completes without
raising the fault flag. -/
theorem produce_loop_no_fault (fd : video_format_desc)
    (ls : List (Int × layer)) (frames : Imap draw_frame)
    (ts : Imap tweened_transform)
    (hok : ∀ kl ∈ ls, kl.2.foreground.produces ≠ none) :
    (produce_loop fd ls frames ts).2.2 = false := by
  induction ls generalizing frames ts with
  | nil => rfl
  | cons hd tl ih =>
      obtain ⟨k2, l⟩ := hd
      have hh := hok (k2, l) (List.mem_cons_self _ _)
      have htl : ∀ kl ∈ tl, kl.2.foreground.produces ≠ none :=
        fun kl hm => hok kl (List.mem_cons_of_mem _ hm)
      rcases hp : l.foreground.produces with _ | raw
      · exact absurd hp hh
      · simp only [produce_loop, layer.receive, hp]
        by_cases hfm : fd.field_mode = field_mode.progressive
        · rw [if_neg (fun hh2 => hh2 hfm)]
          exact ih _ _ htl
        · rw [if_pos hfm]
          exact ih _ _ htl

/-- The production loop never adds or removes frame-map keys as long as
every processed layer already has a slot (the placeholder loop guarantees
this). -/
theorem produce_loop_keys (fd : video_format_desc)
    (ls : List (Int × layer)) (frames : Imap draw_frame)
    (ts : Imap tweened_transform)
    (hfr : ∀ kl ∈ ls, frames.find? kl.1 ≠ none) :
    (produce_loop fd ls frames ts).1.keys = frames.keys := by
  induction ls generalizing frames ts with
  | nil => rfl
  | cons hd tl ih =>
      obtain ⟨k2, l⟩ := hd
      have hh : frames.find? k2 ≠ none := hfr (k2, l) (List.mem_cons_self _ _)
      have htl : ∀ (v : draw_frame) (kl : Int × layer), kl ∈ tl →
          (frames.insert k2 v).find? kl.1 ≠ none := fun v kl hm =>
        Imap.find?_insert_ne_none _ _ _ _ (hfr kl (List.mem_cons_of_mem _ hm))
      rcases hp : l.foreground.produces with _ | raw
      · simp only [produce_loop, layer.receive, hp]
      · simp only [produce_loop, layer.receive, hp]
        by_cases hfm : fd.field_mode = field_mode.progressive
        · rw [if_neg (fun hh2 => hh2 hfm)]
          rw [ih _ _ (htl _)]
          exact keys_insert_of_find? _ _ _ hh
        · rw [if_pos hfm]
          rw [ih _ _ (htl _)]
          exact keys_insert_of_find? _ _ _ hh

/-- Transform entries survive the whole production loop (they are only
ticked and re-stored, never erased), fault or not. -/
theorem produce_loop_transform_survives (fd : video_format_desc)
    (ls : List (Int × layer)) (frames : Imap draw_frame)
    (ts : Imap tweened_transform) (k : Int) (v : tweened_transform)
    (h : ts.find? k = some v) :
    ∃ w, (produce_loop fd ls frames ts).2.1.find? k = some w := by
  induction ls generalizing frames ts v with
  | nil => exact ⟨v, h⟩
  | cons hd tl ih =>
      obtain ⟨k2, l⟩ := hd
      rcases hp : l.foreground.produces with _ | raw
      · simp only [produce_loop, layer.receive, hp]
        exact find?_tick_step ts k2 k _ v h
      · simp only [produce_loop, layer.receive, hp]
        by_cases hfm : fd.field_mode = field_mode.progressive
        · rw [if_neg (fun hh2 => hh2 hfm)]
          obtain ⟨w, hw⟩ := find?_tick_step ts k2 k
            ((ts.get_or_create k2).1.fetch_and_tick 1).2 v h
          exact ih _ _ _ hw
        · rw [if_pos hfm]
          obtain ⟨w, hw⟩ := find?_tick_step ts k2 k
            ((ts.get_or_create k2).1.fetch_and_tick 1).2 v h
          obtain ⟨w2, hw2⟩ := find?_tick_step
            (((ts.get_or_create k2).2).insert k2 ((ts.get_or_create k2).1.fetch_and_tick 1).2)
            k2 k _ w hw
          exact ih _ _ _ hw2

/-- What the production loop does at the key of a present, healthy layer
when the layer keys are distinct: under a progressive format the
transform is ticked once and the slot receives the single wrapped frame;
under an interlaced format the transform is ticked twice and the slot
receives the interlacing of the two wrappings of the same raw frame. -/
theorem produce_loop_at_key (fd : video_format_desc) (ls : List (Int × layer))
    (frames : Imap draw_frame) (ts : Imap tweened_transform)
    (k : Int) (l : layer) (raw : raw_frame)
    (hmem : (k, l) ∈ ls) (hnd : (ls.map Prod.fst).Nodup)
    (hok : ∀ kl ∈ ls, kl.2.foreground.produces ≠ none)
    (hraw : l.foreground.produces = some raw) :
    (produce_loop fd ls frames ts).2.1.find? k
        = some (if fd.field_mode = field_mode.progressive
            then ((ts.find? k).getD default).tick 1
            else (((ts.find? k).getD default).tick 1).tick 1) ∧
    (produce_loop fd ls frames ts).1.find? k
        = some (if fd.field_mode = field_mode.progressive
            then draw_frame.frame raw ((((ts.find? k).getD default).tick 1).fetch)
            else draw_frame.interlace
                (draw_frame.frame raw ((((ts.find? k).getD default).tick 1).fetch))
                (draw_frame.frame raw
                  (((((ts.find? k).getD default).tick 1).tick 1).fetch))
                fd.field_mode) := by
  revert hmem hnd hok
  induction ls generalizing frames ts with
  | nil =>
      intro hmem _ _
      cases hmem
  | cons hd tl ih =>
      intro hmem hnd hok
      obtain ⟨k2, l2⟩ := hd
      rcases List.mem_cons.mp hmem with he | hm
      · -- the head entry is the layer under scrutiny
        injection he with he1 he2
        subst he1
        subst he2
        have hknotin : ∀ kl ∈ tl, kl.1 ≠ k := by
          intro kl hm2 he2
          have hmm : kl.1 ∈ tl.map Prod.fst := List.mem_map_of_mem Prod.fst hm2
          rw [he2] at hmm
          exact (List.nodup_cons.mp hnd).1 hmm
        have hfst : (ts.get_or_create k).1 = (ts.find? k).getD default :=
          Imap.get_or_create_fst ts k
        simp only [produce_loop, layer.receive, hraw]
        by_cases hfm : fd.field_mode = field_mode.progressive
        · rw [if_neg (fun hh => hh hfm), if_pos hfm, if_pos hfm]
          rcases produce_loop_untouched fd tl
            (frames.insert k (draw_frame.frame raw
              ((ts.get_or_create k).1.fetch_and_tick 1).1))
            (((ts.get_or_create k).2).insert k
              ((ts.get_or_create k).1.fetch_and_tick 1).2) k hknotin with ⟨h1, h2⟩
          constructor
          · rw [h2, Imap.find?_insert_self, hfst]
            rfl
          · rw [h1, Imap.find?_insert_self, hfst]
            rfl
        · rw [if_pos hfm, if_neg hfm, if_neg hfm]
          have hts1 : ((((ts.get_or_create k).2).insert k
              ((ts.get_or_create k).1.fetch_and_tick 1).2).get_or_create k)
              = (((ts.get_or_create k).1.fetch_and_tick 1).2,
                 ((ts.get_or_create k).2).insert k
                   ((ts.get_or_create k).1.fetch_and_tick 1).2) :=
            Imap.get_or_create_of_some _ _ _ (Imap.find?_insert_self _ _ _)
          rw [hts1]
          rcases produce_loop_untouched fd tl
            (frames.insert k (draw_frame.interlace
              (draw_frame.frame raw ((ts.get_or_create k).1.fetch_and_tick 1).1)
              (draw_frame.frame raw
                ((((ts.get_or_create k).1.fetch_and_tick 1).2).fetch_and_tick 1).1)
              fd.field_mode))
            ((((ts.get_or_create k).2).insert k
                ((ts.get_or_create k).1.fetch_and_tick 1).2).insert k
              ((((ts.get_or_create k).1.fetch_and_tick 1).2).fetch_and_tick 1).2)
            k hknotin with ⟨h1, h2⟩
          constructor
          · rw [h2, Imap.find?_insert_self, hfst]
            rfl
          · rw [h1, Imap.find?_insert_self, hfst]
            rfl
      · -- the head entry has a different key
        have hk2 : k2 ≠ k := by
          intro he2
          have hmm : k ∈ tl.map Prod.fst := List.mem_map_of_mem Prod.fst hm
          rw [← he2] at hmm
          exact (List.nodup_cons.mp hnd).1 hmm
        have htl : ∀ kl ∈ tl, kl.2.foreground.produces ≠ none :=
          fun kl hm2 => hok kl (List.mem_cons_of_mem _ hm2)
        have hnd2 : (tl.map Prod.fst).Nodup := (List.nodup_cons.mp hnd).2
        have hh := hok (k2, l2) (List.mem_cons_self _ _)
        rcases hp : l2.foreground.produces with _ | raw2
        · exact absurd hp hh
        · simp only [produce_loop, layer.receive, hp]
          have hts : ∀ (m : Imap tweened_transform) (t : tweened_transform),
              ((((m.get_or_create k2).2).insert k2 t).find? k) = m.find? k := fun m t => by
            rw [Imap.find?_insert_ne _ _ _ _ hk2, Imap.find?_get_or_create_ne _ _ _ hk2]
          by_cases hfm : fd.field_mode = field_mode.progressive
          · rw [if_neg (fun hh2 => hh2 hfm)]
            rcases ih _ _ hm hnd2 htl with ⟨ha, hb⟩
            rw [ha, hb]
            simp [hts]
          · rw [if_pos hfm]
            rcases ih _ _ hm hnd2 htl with ⟨ha, hb⟩
            rw [ha, hb]
            simp [hts]

/-- Lookup in the placeholder frame map: every layer key starts at the
empty frame. -/
theorem find?_initial_frames (s : StageSt) (k : Int) :
    (initial_frames s).find? k
      = (s.layers_.find? k).map (fun _ => draw_frame.empty) := by
  show Imap.lookup_list k (s.layers_.entries.map fun kl => (kl.1, draw_frame.empty))
      = (Imap.lookup_list k s.layers_.entries).map (fun _ => draw_frame.empty)
  induction s.layers_.entries with
  | nil => rfl
  | cons hd tl ih =>
      obtain ⟨k2, l⟩ := hd
      by_cases h : k2 = k <;> simp [Imap.lookup_list, h, ih]

/-- The placeholder frame map has exactly the layer keys. -/
theorem keys_initial_frames (s : StageSt) :
    (initial_frames s).keys = s.layers_.keys := by
  show (s.layers_.entries.map fun kl => (kl.1, draw_frame.empty)).map Prod.fst
      = s.layers_.entries.map Prod.fst
  induction s.layers_.entries with
  | nil => rfl
  | cons hd tl ih => simp [ih]

/-- Both the fault branch and the success branch of `operator()` return
the frame map assembled by the loop. -/
theorem stage_produce_frames_eq (s : StageSt) (fd : video_format_desc) :
    (stage_produce s fd).frames = (stage_produce_core s fd).1 := by
  unfold stage_produce
  rcases stage_produce_core s fd with ⟨frames, ts, b⟩
  cases b <;> rfl

/-- Both branches of `operator()` keep the loop's transform map: the catch
handler clears `layers_` only and never touches `transforms_`. -/
theorem stage_produce_transforms_eq (s : StageSt) (fd : video_format_desc) :
    (stage_produce s fd).state.transforms_ = (stage_produce_core s fd).2.1 := by
  unfold stage_produce
  rcases stage_produce_core s fd with ⟨frames, ts, b⟩
  cases b <;> rfl

/-! ## Claim C1 — clear and the transform map -/

/-- C1, counterexample: the claim says that after `clear(0)` neither the
layer map nor the transform map contains an entry for 0; on a stage with
an in-flight transform at index 0, `clear(0)` removes the layer entry but
the transform entry for 0 is still present. -/
theorem stage_clear_keeps_transform_entry :
    (stage_clear_index s_tween 0).layers_.find? 0 = none ∧
    (stage_clear_index s_tween 0).transforms_.find? 0 ≠ none := by
  with_unfolding_all decide

/-- C1, amended: `clear(i)` removes the layer entry at `i` and leaves the
transform map completely unchanged; the no-argument `clear()` empties the
layer map and leaves the transform map completely unchanged (transform
entries are removed only by `clear_transforms`). -/
theorem stage_clear_drops_layer_only (s : StageSt) (i : Int) :
    (stage_clear_index s i).layers_.find? i = none ∧
    (stage_clear_index s i).transforms_ = s.transforms_ ∧
    (stage_clear s).layers_ = Imap.empty ∧
    (stage_clear s).transforms_ = s.transforms_ :=
  ⟨Imap.find?_erase_self _ _, rfl, rfl, rfl⟩

/-! ## Claim C4 — deinterlace flagging -/

/-- C4: during produce a layer is flagged deinterlace iff the format is
not progressive and the snapshot's vertical fill scale differs from 1 by
more than 0.0001 or its vertical fill translation exceeds 0.0001 in
absolute value; in particular, under an interlaced format a vertical fill
scale of 1.00005 is not flagged and 1.01 is flagged. -/
theorem produce_flags_deinterlace_iff :
    (∀ (fd : video_format_desc) (t : frame_transform),
        (produce_flags fd t).deinterlace = true ↔
          (fd.field_mode ≠ field_mode.progressive ∧
            (qabs (t.fill_scale.2 - 1) > (0.0001 : ℚ) ∨
             qabs t.fill_translation.2 > (0.0001 : ℚ)))) ∧
    (produce_flags fd_interlaced t100005).deinterlace = false ∧
    (produce_flags fd_interlaced t101).deinterlace = true := by
  refine ⟨fun fd t => ?_, ?_, ?_⟩
  · by_cases h : fd.field_mode = field_mode.progressive <;>
      simp [produce_flags, h]
  · with_unfolding_all decide
  · with_unfolding_all decide

/-! ## Claim C7 — volume read-after-write -/

/-- C7: `set_master_volume(v)` followed by `get_master_volume()` returns
`v`: both tasks go to the high-priority lane of the Mixer's serialized
queue (FIFO within the lane), `get` blocks until its task has run, and
queued normal-priority mix tasks stay pending, untouched, behind the high
lane. -/
theorem mixer_volume_read_after_write (e : MixerExec) (v : ℚ) :
    (mixer_get_master_volume (mixer_set_master_volume e v)).1 = v ∧
    (mixer_get_master_volume (mixer_set_master_volume e v)).2.normal = e.normal := by
  constructor
  · simp [mixer_get_master_volume, mixer_set_master_volume,
      List.foldl_append, exec_mixer_task]
  · rfl

/-! ## Claim C8 — swap symmetry -/

/-- C8, counterexample: on a stage with no layers, `swap_layer(0, 1)`
applied twice does not restore the original assignment at index 0 — the
`operator[]` lookups materialise default-constructed entries, so index 0
ends up holding a default layer where originally it held nothing. -/
theorem stage_swap_layer_materialises_missing :
    (stage_swap_layer (stage_swap_layer s_empty 0 1) 0 1).layers_.find? 0
      = some layer.default ∧
    s_empty.layers_.find? 0 = none := by
  with_unfolding_all decide

/-- C8, amended: when both indices are present in the layer map, the
within-instance `swap_layer(i, j)` applied twice restores the layer
assignment at every index (in particular at `i` and `j`); when an index is
missing, the double swap instead materialises a default-constructed entry
there. -/
theorem stage_swap_layer_involutive (s : StageSt) (i j : Int)
    (li lj : layer) (hi : s.layers_.find? i = some li)
    (hj : s.layers_.find? j = some lj) (k : Int) :
    (stage_swap_layer (stage_swap_layer s i j) i j).layers_.find? k
      = s.layers_.find? k := by
  by_cases hij : i = j
  · subst hij
    have hlv : li = lj := by rw [hi] at hj; exact Option.some.inj hj
    subst hlv
    have h1 : stage_swap_layer s i i = s := by
      simp only [stage_swap_layer, Imap.get_or_create_of_some _ _ _ hi]
      have : (s.layers_.insert i li).insert i li = s.layers_ := by
        have he := Imap.insert_insert_same i li li s.layers_.entries
        have he2 := Imap.insert_self_of_lookup i li s.layers_.entries hi
        show Imap.mk (Imap.insert_list i li (Imap.insert_list i li s.layers_.entries)) = s.layers_
        rw [he, he2]
      rw [this]
    rw [h1, h1]
  · -- first swap
    have e1 : stage_swap_layer s i j
        = { s with layers_ := (s.layers_.insert i lj).insert j li } := by
      simp [stage_swap_layer, Imap.get_or_create_of_some _ _ _ hi,
        Imap.get_or_create_of_some _ _ _ hj]
    have hfi : ((s.layers_.insert i lj).insert j li).find? i = some lj := by
      rw [Imap.find?_insert_ne _ j i li (Ne.symm hij), Imap.find?_insert_self]
    have hfj : ((s.layers_.insert i lj).insert j li).find? j = some li :=
      Imap.find?_insert_self _ _ _
    have e2 : stage_swap_layer { s with layers_ := (s.layers_.insert i lj).insert j li } i j
        = { s with layers_ :=
              ((((s.layers_.insert i lj).insert j li).insert i li).insert j lj) } := by
      simp [stage_swap_layer, Imap.get_or_create_of_some _ _ _ hfi,
        Imap.get_or_create_of_some _ _ _ hfj]
    rw [e1, e2]
    show (((((s.layers_.insert i lj).insert j li).insert i li).insert j lj)).find? k
      = s.layers_.find? k
    by_cases hk : j = k
    · subst hk
      rw [Imap.find?_insert_self, hj]
    · rw [Imap.find?_insert_ne _ j k lj hk]
      by_cases hk2 : i = k
      · subst hk2
        rw [Imap.find?_insert_self, hi]
      · rw [Imap.find?_insert_ne _ i k li hk2,
          Imap.find?_insert_ne _ j k li hk, Imap.find?_insert_ne _ i k lj hk2]

/-- C8, witness: on a stage holding distinct layers at indices 0 and 1,
the double swap restores the original entry at index 0. -/
theorem stage_swap_layer_involutive_witness :
    (s_ab.layers_.find? 0 = some layer_a ∧ s_ab.layers_.find? 1 = some layer_b) ∧
    (stage_swap_layer (stage_swap_layer s_ab 0 1) 0 1).layers_.find? 0
      = s_ab.layers_.find? 0 :=
  ⟨⟨by decide, by decide⟩,
    stage_swap_layer_involutive s_ab 0 1 layer_a layer_b (by decide) (by decide) 0⟩

/-! ## Claim C9 — missing indices -/

/-- C9: for an index absent from both maps, the write paths materialise a
default-constructed entry (`load` installs the producer into a
default-constructed layer; `apply_transform` snapshots a
default-constructed tween), while the read paths (`foreground`,
`background`, `info(index)`) return the default layer's data — an
empty/default result with no not-found signal. -/
theorem stage_missing_index_defaults (s : StageSt) (i : Int)
    (hl : s.layers_.find? i = none) (ht : s.transforms_.find? i = none)
    (p : frame_producer) (preview : Bool) (apd : Int)
    (f : transform_func) (d : Nat) (tw : tweener) :
    (stage_load s i p preview apd).layers_.find? i
        = some (layer.default.load p preview apd) ∧
    (stage_apply_transform s i f d tw).transforms_.find? i
        = some ⟨tweened_transform.default.fetch,
                f tweened_transform.default.fetch, d, 0, tw⟩ ∧
    (stage_foreground s i).1 = frame_producer.empty ∧
    (stage_background s i).1 = frame_producer.empty ∧
    (stage_info_index s i).1 = layer.default.info := by
  refine ⟨?_, ?_, ?_, ?_, ?_⟩
  · simp [stage_load, Imap.get_or_create_of_none _ _ hl, Imap.find?_insert_self,
      default_layer_eq]
  · simp [stage_apply_transform, Imap.get_or_create_of_none _ _ ht,
      Imap.find?_insert_self, default_tween_eq]
  · simp [stage_foreground, Imap.get_or_create_of_none _ _ hl, default_layer_eq,
      layer.default]
  · simp [stage_background, Imap.get_or_create_of_none _ _ hl, default_layer_eq,
      layer.default]
  · simp [stage_info_index, Imap.get_or_create_of_none _ _ hl, default_layer_eq]

/-- C9, witness: the empty stage at index 0. -/
theorem stage_missing_index_defaults_witness :
    (s_empty.layers_.find? 0 = none ∧ s_empty.transforms_.find? 0 = none) ∧
    ((stage_load s_empty 0 sample_producer false 0).layers_.find? 0
        = some (layer.default.load sample_producer false 0) ∧
     (stage_apply_transform s_empty 0 (fun t => t) 5 .linear).transforms_.find? 0
        = some ⟨tweened_transform.default.fetch,
                tweened_transform.default.fetch, 5, 0, .linear⟩ ∧
     (stage_foreground s_empty 0).1 = frame_producer.empty ∧
     (stage_background s_empty 0).1 = frame_producer.empty ∧
     (stage_info_index s_empty 0).1 = layer.default.info) :=
  ⟨⟨by decide, by decide⟩,
    stage_missing_index_defaults s_empty 0 (by decide) (by decide)
      sample_producer false 0 (fun t => t) 5 .linear⟩

/-! ## Claim C3 — mixer visit order and layer depth -/

/-- The loop of `mixer::impl::operator()` characterised: the audio
accumulator receives every frame's depth-first contribution with the
frame's original transforms, the image accumulator receives the
contribution of each frame after its top-level layer depth is set to 1,
both in iteration order. -/
theorem mix_fold_eq (am : audio_mixer) (im : image_mixer)
    (frames : List (Int × draw_frame)) :
    mix_fold am im frames =
      ({ am with items := am.items ++ (frames.map (fun kf => kf.2.visit)).flatten },
       { im with
          items := im.items ++
            (frames.map (fun kf => (kf.2.set_layer_depth 1).visit)).flatten }) := by
  induction frames generalizing am im with
  | nil => simp [mix_fold]
  | cons hd tl ih =>
      obtain ⟨k, f⟩ := hd
      simp [mix_fold, draw_frame.accept_audio, draw_frame.accept_image, ih]

/-- C3, counterexample: the claim says the layer depth is set to 1 before
the frame accepts the audio accumulator; mixing a single frame whose
top-level depth is 5 shows the audio accumulator receives depth 5 — the
depth is rewritten only between the audio accept and the image accept. -/
theorem mixer_audio_sees_original_depth :
    (mixer_mix mc0 ⟨[(0, draw_frame.frame 7 t_depth5)]⟩ fd_progressive).1.audio.items
      = [(t_depth5, some 7)] ∧
    t_depth5.image_transform.layer_depth = 5 ∧ (5 : Int) ≠ 1 := by
  with_unfolding_all decide

/-- C3, amended: for every frame of the map, in iteration order, the frame
accepts the audio accumulator with its original transform (in particular
its original layer depth), then its top-level layer depth is set to 1,
then it accepts the image accumulator — only the image accumulator
observes the flattened depth. -/
theorem mixer_mix_depth_order (st : MixerCore) (frames : Imap draw_frame)
    (fd : video_format_desc) :
    (mixer_mix st frames fd).1.audio.items =
      st.audio_mixer_.items ++ (frames.entries.map (fun kf => kf.2.visit)).flatten ∧
    (mixer_mix st frames fd).1.image.items =
      st.image_mixer_.items ++
        (frames.entries.map (fun kf => (kf.2.set_layer_depth 1).visit)).flatten := by
  constructor <;>
    simp [mixer_mix, mix_fold_eq, audio_mixer.finalize, image_mixer.finalize]

/-! ## Claim C2 — fail-safe on fault -/

/-- C2, counterexample: the claim says a fault during produce yields an
empty frame map with no layer entries; with one faulting layer, the
returned map still holds the placeholder entry for layer 0 (`frames` is
initialised with `draw_frame::empty()` for every layer before the
parallel section and is returned as assembled). -/
theorem stage_produce_fault_returns_entries :
    (stage_produce s_fault fd_progressive).frames.entries
      = [(0, draw_frame.empty)] ∧
    (stage_produce s_fault fd_progressive).frames.entries ≠ [] ∧
    (stage_produce s_fault fd_progressive).errors_logged = 1 := by
  with_unfolding_all decide

/-- C2, amended: produce never propagates an exception (it is a total
function of the state); the returned frame map always carries exactly the
layer keys present at the start of the tick — on a fault these are the
placeholder (or already-completed) entries assembled so far — and on a
fault one error is logged and all layers are dropped. -/
theorem stage_produce_fault_failsafe (s : StageSt) (fd : video_format_desc) :
    (stage_produce s fd).frames.keys = s.layers_.keys ∧
    ((stage_produce_core s fd).2.2 = true →
      (stage_produce s fd).errors_logged = 1 ∧
      (stage_produce s fd).state.layers_ = Imap.empty) := by
  constructor
  · have hfr : ∀ kl ∈ s.layers_.entries, (initial_frames s).find? kl.1 ≠ none := by
      intro kl hm
      rw [find?_initial_frames]
      rcases hx : s.layers_.find? kl.1 with _ | v
      · exact absurd hx (Imap.lookup_isSome_of_mem kl.1 kl.2 _ hm)
      · simp
    rw [stage_produce_frames_eq]
    exact (produce_loop_keys fd s.layers_.entries (initial_frames s)
      s.transforms_ hfr).trans (keys_initial_frames s)
  · intro h
    simp only [stage_produce]
    rcases hc : stage_produce_core s fd with ⟨frames, ts, b⟩
    rw [hc] at h
    cases b
    · cases h
    · exact ⟨rfl, rfl⟩

/-- C2, witness: the faulting one-layer stage: the returned key list is
the layer key list, one error is logged and the layers are dropped. -/
theorem stage_produce_fault_failsafe_witness :
    (stage_produce_core s_fault fd_progressive).2.2 = true ∧
    ((stage_produce s_fault fd_progressive).frames.keys
        = s_fault.layers_.keys ∧
     ((stage_produce s_fault fd_progressive).errors_logged = 1 ∧
      (stage_produce s_fault fd_progressive).state.layers_ = Imap.empty)) :=
  ⟨by with_unfolding_all decide,
   (stage_produce_fault_failsafe s_fault fd_progressive).1,
   (stage_produce_fault_failsafe s_fault fd_progressive).2
     (by with_unfolding_all decide)⟩

/-! ## Claim C10 — the catch handler and the transform map -/

/-- C10: when a produce tick faults, only the layer map is cleared: the
resulting transform map is exactly the map assembled by the loop up to the
fault (the catch handler never touches `transforms_`), so every transform
entry present before the tick survives, with its ticked elapsed count. -/
theorem stage_produce_fault_keeps_transforms (s : StageSt)
    (fd : video_format_desc)
    (h : (stage_produce_core s fd).2.2 = true) :
    (stage_produce s fd).state.layers_ = Imap.empty ∧
    (stage_produce s fd).state.transforms_ = (stage_produce_core s fd).2.1 ∧
    (∀ (k : Int) (v : tweened_transform), s.transforms_.find? k = some v →
      ∃ w, (stage_produce s fd).state.transforms_.find? k = some w) := by
  refine ⟨?_, stage_produce_transforms_eq s fd, ?_⟩
  · simp only [stage_produce]
    rcases hc : stage_produce_core s fd with ⟨frames, ts, b⟩
    rw [hc] at h
    cases b
    · cases h
    · rfl
  · intro k v hv
    rw [stage_produce_transforms_eq]
    exact produce_loop_transform_survives fd _ _ _ k v hv

/-- C10, witness: a faulting stage with an in-flight transform at index 0
(elapsed 1 of 4): after the failed tick the layers are gone and the
transform entry at 0 is still present. -/
theorem stage_produce_fault_keeps_transforms_witness :
    (stage_produce_core s_fault2 fd_progressive).2.2 = true ∧
    ((stage_produce s_fault2 fd_progressive).state.layers_ = Imap.empty ∧
     (stage_produce s_fault2 fd_progressive).state.transforms_
        = (stage_produce_core s_fault2 fd_progressive).2.1 ∧
     ∃ w, (stage_produce s_fault2 fd_progressive).state.transforms_.find? 0
        = some w) :=
  (fun h =>
    ⟨by with_unfolding_all decide, h.1, h.2.1,
     h.2.2 0 ⟨frame_transform.default, t101, 4, 1, .linear⟩
       (by with_unfolding_all decide)⟩)
  (stage_produce_fault_keeps_transforms s_fault2 fd_progressive
    (by with_unfolding_all decide))

/-! ## Claim C5 — interlaced production ticks twice -/

/-- C5: a healthy layer of a produce tick (distinct layer keys, no layer
faulting): under an interlaced format its transform is advanced two ticks
and its frame-map entry is the interlacing, per the format's field mode,
of two wrappings of the same raw frame carrying the first-tick and
second-tick snapshots; under a progressive format the transform advances
one tick and the entry is the single wrapped frame. -/
theorem stage_produce_field_ticks (s : StageSt) (fd : video_format_desc)
    (k : Int) (l : layer) (raw : raw_frame)
    (hnd : s.layers_.keys.Nodup)
    (hok : ∀ kl ∈ s.layers_.entries, kl.2.foreground.produces ≠ none)
    (hk : (k, l) ∈ s.layers_.entries)
    (hraw : l.foreground.produces = some raw) :
    (fd.field_mode ≠ field_mode.progressive →
      (stage_produce s fd).state.transforms_.find? k
          = some ((((s.transforms_.find? k).getD
              tweened_transform.default).tick 1).tick 1) ∧
      (stage_produce s fd).frames.find? k
          = some (draw_frame.interlace
              (draw_frame.frame raw ((((s.transforms_.find? k).getD
                tweened_transform.default).tick 1).fetch))
              (draw_frame.frame raw (((((s.transforms_.find? k).getD
                tweened_transform.default).tick 1).tick 1).fetch))
              fd.field_mode)) ∧
    (fd.field_mode = field_mode.progressive →
      (stage_produce s fd).state.transforms_.find? k
          = some (((s.transforms_.find? k).getD
              tweened_transform.default).tick 1) ∧
      (stage_produce s fd).frames.find? k
          = some (draw_frame.frame raw ((((s.transforms_.find? k).getD
              tweened_transform.default).tick 1).fetch))) := by
  have hmain := produce_loop_at_key fd s.layers_.entries (initial_frames s)
    s.transforms_ k l raw hk hnd hok hraw
  rw [stage_produce_transforms_eq, stage_produce_frames_eq]
  constructor
  · intro hfm
    rcases hmain with ⟨ha, hb⟩
    rw [if_neg hfm] at ha hb
    exact ⟨ha, hb⟩
  · intro hfm
    rcases hmain with ⟨ha, hb⟩
    rw [if_pos hfm] at ha hb
    exact ⟨ha, hb⟩

/-- C5, witness: the one-layer stage with an in-flight tween, produced
once under the interlaced format and once under the progressive format. -/
theorem stage_produce_field_ticks_witness :
    (fd_interlaced.field_mode ≠ field_mode.progressive ∧
     s_tween.layers_.keys.Nodup ∧
     (∀ kl ∈ s_tween.layers_.entries, kl.2.foreground.produces ≠ none) ∧
     (0, ok_layer) ∈ s_tween.layers_.entries ∧
     ok_layer.foreground.produces = some 42) ∧
    ((stage_produce s_tween fd_interlaced).state.transforms_.find? 0
        = some ((((s_tween.transforms_.find? 0).getD
            tweened_transform.default).tick 1).tick 1) ∧
     (stage_produce s_tween fd_interlaced).frames.find? 0
        = some (draw_frame.interlace
            (draw_frame.frame 42 ((((s_tween.transforms_.find? 0).getD
              tweened_transform.default).tick 1).fetch))
            (draw_frame.frame 42 (((((s_tween.transforms_.find? 0).getD
              tweened_transform.default).tick 1).tick 1).fetch))
            fd_interlaced.field_mode)) ∧
    ((stage_produce s_tween fd_progressive).state.transforms_.find? 0
        = some (((s_tween.transforms_.find? 0).getD
            tweened_transform.default).tick 1) ∧
     (stage_produce s_tween fd_progressive).frames.find? 0
        = some (draw_frame.frame 42 ((((s_tween.transforms_.find? 0).getD
            tweened_transform.default).tick 1).fetch))) :=
  ⟨⟨by decide, by decide, by decide, by decide, by decide⟩,
   (stage_produce_field_ticks s_tween fd_interlaced 0 ok_layer 42
     (by decide) (by decide) (by decide) (by decide)).1 (by decide),
   (stage_produce_field_ticks s_tween fd_progressive 0 ok_layer 42
     (by decide) (by decide) (by decide) (by decide)).2 (by decide)⟩

/-! ## Claim C6 — batch atomicity of apply_transforms -/

/-- One batched replacement leaves every other transform entry alone. -/
theorem apply_transform_item_find?_ne (ts : Imap tweened_transform)
    (item : transform_item) (k : Int) (h : item.index ≠ k) :
    (apply_transform_item ts item).find? k = ts.find? k := by
  unfold apply_transform_item
  rw [Imap.find?_insert_ne _ _ _ _ h, Imap.find?_get_or_create_ne _ _ _ h]

/-- Folding batched replacements whose indices all differ from `k` leaves
the entry at `k` alone. -/
theorem foldl_apply_items_find?_ne (batch : List transform_item)
    (ts : Imap tweened_transform) (k : Int)
    (h : ∀ item ∈ batch, item.index ≠ k) :
    (batch.foldl apply_transform_item ts).find? k = ts.find? k := by
  induction batch generalizing ts with
  | nil => rfl
  | cons hd tl ih =>
      rw [List.foldl_cons, ih _ (fun it hm => h it (List.mem_cons_of_mem _ hm)),
        apply_transform_item_find?_ne _ _ _ (h hd (List.mem_cons_self _ _))]

/-- C6: `apply_transforms` enqueues the whole batch as one high-priority
task; the only states observable at task boundaries are the state before
the task and the state after the whole batch has been applied (never a
proper non-empty subset), and after that single task every batched index
holds its fully replaced tween (built from the snapshot current when the
task ran). -/
theorem stage_apply_transforms_atomic (e : StageExec)
    (batch : List transform_item)
    (hnd : (batch.map transform_item.index).Nodup) :
    (stage_apply_transforms e batch).high
        = e.high ++ [stage_task.apply_transforms_task batch] ∧
    run_stage_tasks e.st [] = e.st ∧
    run_stage_tasks e.st [stage_task.apply_transforms_task batch]
        = stage_apply_transforms_body e.st batch ∧
    ∀ item ∈ batch,
      (stage_apply_transforms_body e.st batch).transforms_.find? item.index
        = some ⟨((e.st.transforms_.find? item.index).getD default).fetch,
                item.func (((e.st.transforms_.find? item.index).getD default).fetch),
                item.duration, 0, item.tween⟩ := by
  refine ⟨rfl, rfl, rfl, ?_⟩
  have hgen : ∀ (bs : List transform_item) (ts : Imap tweened_transform),
      (bs.map transform_item.index).Nodup →
      ∀ item ∈ bs, (bs.foldl apply_transform_item ts).find? item.index
        = some ⟨((ts.find? item.index).getD default).fetch,
                item.func (((ts.find? item.index).getD default).fetch),
                item.duration, 0, item.tween⟩ := by
    intro bs
    induction bs with
    | nil =>
        intro ts _ item hm
        cases hm
    | cons hd tl ih =>
        intro ts hnd2 item hm
        rcases List.mem_cons.mp hm with he | hm2
        · subst he
          rw [List.foldl_cons]
          have hne : ∀ it ∈ tl, it.index ≠ item.index := by
            intro it hm3 he2
            have hmm : it.index ∈ tl.map transform_item.index :=
              List.mem_map_of_mem transform_item.index hm3
            rw [he2] at hmm
            exact (List.nodup_cons.mp hnd2).1 hmm
          rw [foldl_apply_items_find?_ne _ _ _ hne]
          unfold apply_transform_item
          rw [Imap.find?_insert_self, Imap.get_or_create_fst]
        · rw [List.foldl_cons]
          have hne : hd.index ≠ item.index := by
            intro he2
            have hmm : item.index ∈ tl.map transform_item.index :=
              List.mem_map_of_mem transform_item.index hm2
            rw [← he2] at hmm
            exact (List.nodup_cons.mp hnd2).1 hmm
          rw [ih _ (List.nodup_cons.mp hnd2).2 item hm2,
            apply_transform_item_find?_ne _ _ _ hne]
  exact hgen batch e.st.transforms_ hnd

/-- C6, witness: a two-element batch with distinct indices on the empty
stage: one task is enqueued and both replacements land in that one task. -/
theorem stage_apply_transforms_atomic_witness :
    (batch2.map transform_item.index).Nodup ∧
    (stage_apply_transforms ⟨s_empty, []⟩ batch2).high
        = [stage_task.apply_transforms_task batch2] ∧
    run_stage_tasks s_empty [stage_task.apply_transforms_task batch2]
        = stage_apply_transforms_body s_empty batch2 ∧
    (stage_apply_transforms_body s_empty batch2).transforms_.find? 0
        = some ⟨((s_empty.transforms_.find? 0).getD default).fetch,
                ((s_empty.transforms_.find? 0).getD default).fetch, 3, 0, .linear⟩ :=
  (fun h =>
    ⟨by decide, h.1, h.2.2.1,
     h.2.2.2 ⟨0, fun t => t, 3, .linear⟩
       (by unfold batch2; exact List.mem_cons_self _ _)⟩)
  (stage_apply_transforms_atomic ⟨s_empty, []⟩ batch2 (by decide))

end CasparCG
